import Mathlib

/-!
Verification of the plant/cycle home-automation integration
(custom_components/plant).  The Python source is shallowly embedded:
numeric sensor states become rationals (the source converts every state
with `float(...)` before comparing or aggregating), missing / `None` /
`"unknown"` / `"unavailable"` states become `Option.none`, dictionaries
become association lists, and the stateful entity methods become pure
functions from the relevant state to the new state.
-/

namespace PlantIntegration

/-! ### State-string constants

`STATE_OK`, `STATE_PROBLEM`, `STATE_UNKNOWN` are imported from
`homeassistant.const`; `STATE_LOW` / `STATE_HIGH` come from `const.py`
(lines 176-177). -/

def STATE_OK : String := "ok"

def STATE_PROBLEM : String := "problem"

def STATE_UNKNOWN : String := "unknown"

def STATE_LOW : String := "Low"

def STATE_HIGH : String := "High"

/-! ### Python rounding

`round(x, n)` in Python rounds half to even (banker's rounding).  We model
it on exact rationals. -/

/-- Integer rounding with ties going to the even integer, as Python's
built-in `round` does. -/
def pyRoundInt (q : ℚ) : ℤ :=
  let f : ℤ := ⌊q⌋
  let frac : ℚ := q - (f : ℚ)
  if frac < 1 / 2 then f
  else if 1 / 2 < frac then f + 1
  else if f % 2 = 0 then f else f + 1

/-- Python `round(q, n)`: round to `n` decimal places, ties to even. -/
def roundTo (n : ℕ) (q : ℚ) : ℚ :=
  (pyRoundInt (q * 10 ^ n) : ℚ) / 10 ^ n

/-! ### `PlantDevice.update` (`__init__.py` lines 1571-1933)

`update` walks over the tracked readings of the device.  Every reading
follows the same block pattern, repeated verbatim in the source for
moisture, conductivity, temperature, illuminance, humidity, DLI, water
consumption, fertilizer consumption and power consumption (and the same
pattern again in the cycle branch reading from `_median_sensors`):
if the reading's value is resolvable it sets the per-reading status to
`STATE_LOW` / `STATE_HIGH` / `STATE_OK` by comparing with the min/max
threshold entities, escalates `new_state` to `STATE_PROBLEM` when the
corresponding trigger option is on, and marks `known_state`.  We embed one
reading as a record and `update` as the fold of the per-reading block over
the device's list of readings. -/

/-- One tracked reading of a `PlantDevice`.  `value` is the resolvable
numeric value: `none` when the sensor is absent (`self.sensor_x is None`)
or its state is `None`, `STATE_UNKNOWN` or `STATE_UNAVAILABLE`; in the
cycle branch, `none` when the `_median_sensors` entry is missing.
`minThreshold` / `maxThreshold` are `float(self.min_x.state)` and
`float(self.max_x.state)`, `trigger` is the alarm-trigger option
`self.x_trigger`, and `status` is the stored `self.x_status` (kept
unchanged when the value is not resolvable). -/
structure Reading where
  value : Option ℚ
  minThreshold : ℚ
  maxThreshold : ℚ
  trigger : Bool
  status : Option String
deriving DecidableEq, Repr

/-- The per-reading block of `PlantDevice.update`, threading the local
variables `new_state` and `known_state`. -/
def checkReading (r : Reading) (newState : String) (knownState : Bool) :
    Reading × String × Bool :=
  match r.value with
  | none => (r, newState, knownState)
  | some v =>
    if v < r.minThreshold then
      ({ r with status := some STATE_LOW },
        (if r.trigger then STATE_PROBLEM else newState), true)
    else if v > r.maxThreshold then
      ({ r with status := some STATE_HIGH },
        (if r.trigger then STATE_PROBLEM else newState), true)
    else
      ({ r with status := some STATE_OK }, newState, true)

/-- Sequence of per-reading blocks of `PlantDevice.update`. -/
def updateReadings : List Reading → String → Bool → List Reading × String × Bool
  | [], newState, knownState => ([], newState, knownState)
  | r :: rs, newState, knownState =>
    let step := checkReading r newState knownState
    let rest := updateReadings rs step.2.1 step.2.2
    (step.1 :: rest.1, rest.2)

/-- `PlantDevice.update`: run the reading blocks with `new_state = STATE_OK`
and `known_state = False`, then `if not known_state: new_state =
STATE_UNKNOWN`, and store `new_state` as the overall `_attr_state`.
Returns the updated readings and the overall state. -/
def PlantDevice.update (readings : List Reading) : List Reading × String :=
  let result := updateReadings readings STATE_OK false
  (result.1, if result.2.2 then result.2.1 else STATE_UNKNOWN)

/-- Effect of one block on the reading itself (the status assignment). -/
def checkOne (r : Reading) : Reading :=
  match r.value with
  | none => r
  | some v =>
    if v < r.minThreshold then { r with status := some STATE_LOW }
    else if v > r.maxThreshold then { r with status := some STATE_HIGH }
    else { r with status := some STATE_OK }

/-- A reading escalates `new_state` to `STATE_PROBLEM`: its value is
resolvable, out of the threshold range, and its trigger is enabled. -/
def violated (r : Reading) : Bool :=
  match r.value with
  | none => false
  | some v => r.trigger && (decide (v < r.minThreshold) || decide (v > r.maxThreshold))

/-- A reading marks `known_state`: its value is resolvable. -/
def hasValue (r : Reading) : Bool := r.value.isSome

theorem checkReading_eq (r : Reading) (s : String) (k : Bool) :
    checkReading r s k =
      (checkOne r, (if violated r then STATE_PROBLEM else s), (k || hasValue r)) := by
  cases hv : r.value with
  | none => simp [checkReading, checkOne, violated, hasValue, hv]
  | some v =>
    simp only [checkReading, checkOne, violated, hasValue, hv, Option.isSome_some,
      Bool.or_true]
    by_cases h1 : v < r.minThreshold
    · by_cases ht : r.trigger <;> simp [h1, ht]
    · by_cases h2 : v > r.maxThreshold
      · by_cases ht : r.trigger <;> simp [h1, h2, ht]
      · simp [h1, h2]

theorem updateReadings_eq (rs : List Reading) (s : String) (k : Bool) :
    updateReadings rs s k =
      (rs.map checkOne,
       (if rs.any violated then STATE_PROBLEM else s),
       (k || rs.any hasValue)) := by
  induction rs generalizing s k with
  | nil => simp [updateReadings]
  | cons r rs ih =>
    simp only [updateReadings, checkReading_eq, ih, List.map_cons, List.any_cons,
      Prod.mk.injEq]
    refine ⟨trivial, ?_, ?_⟩
    · by_cases hr : violated r <;> by_cases hrs : rs.any violated <;> simp [hr, hrs]
    · by_cases hr : hasValue r <;> simp [hr, Bool.or_assoc]

theorem PlantDevice.update_eq (rs : List Reading) :
    PlantDevice.update rs =
      (rs.map checkOne,
       if rs.any hasValue then
         (if rs.any violated then STATE_PROBLEM else STATE_OK)
       else STATE_UNKNOWN) := by
  simp only [PlantDevice.update, updateReadings_eq, Bool.false_or]

theorem violated_hasValue {r : Reading} (h : violated r = true) : hasValue r = true := by
  unfold violated hasValue at *
  cases hv : r.value with
  | none => rw [hv] at h; exact absurd h (by simp)
  | some v => simp

theorem violated_iff (r : Reading) :
    violated r = true ↔
      ∃ v : ℚ, r.value = some v ∧ r.trigger = true ∧
        (v < r.minThreshold ∨ r.maxThreshold < v) := by
  cases hv : r.value with
  | none => simp [violated, hv]
  | some v => simp [violated, hv, and_assoc]

theorem any_violated_iff (rs : List Reading) :
    rs.any violated = true ↔
      ∃ r ∈ rs, ∃ v : ℚ, r.value = some v ∧ r.trigger = true ∧
        (v < r.minThreshold ∨ r.maxThreshold < v) := by
  rw [List.any_eq_true]
  constructor
  · rintro ⟨r, hr, hvr⟩
    exact ⟨r, hr, (violated_iff r).mp hvr⟩
  · rintro ⟨r, hr, hex⟩
    exact ⟨r, hr, (violated_iff r).mpr hex⟩

theorem checkOne_status_spec (r : Reading) (v : ℚ) (hv : r.value = some v)
    (hmm : r.minThreshold ≤ r.maxThreshold) :
    ((checkOne r).status = some STATE_LOW ↔ v < r.minThreshold) ∧
    ((checkOne r).status = some STATE_HIGH ↔ r.maxThreshold < v) ∧
    ((checkOne r).status = some STATE_OK ↔
      r.minThreshold ≤ v ∧ v ≤ r.maxThreshold) := by
  simp only [checkOne, hv]
  by_cases h1 : v < r.minThreshold
  · have h2 : ¬ r.maxThreshold < v := not_lt.mpr (le_of_lt (lt_of_lt_of_le h1 hmm))
    refine ⟨by simp [h1], ?_, ?_⟩
    · simp only [if_pos h1]
      constructor
      · intro hc; exact absurd hc (by simp [STATE_LOW, STATE_HIGH])
      · intro hc; exact absurd hc h2
    · simp only [if_pos h1]
      constructor
      · intro hc; exact absurd hc (by simp [STATE_LOW, STATE_OK])
      · intro hc; exact absurd h1 (not_lt.mpr hc.1)
  · by_cases h2 : v > r.maxThreshold
    · refine ⟨?_, by simp [h1, h2], ?_⟩
      · simp only [if_neg h1, if_pos h2]
        constructor
        · intro hc; exact absurd hc (by simp [STATE_LOW, STATE_HIGH])
        · intro hc; exact absurd hc h1
      · simp only [if_neg h1, if_pos h2]
        constructor
        · intro hc; exact absurd hc (by simp [STATE_HIGH, STATE_OK])
        · intro hc; exact absurd h2 (not_lt.mpr hc.2)
    · refine ⟨?_, ?_, ?_⟩
      · simp only [if_neg h1, if_neg h2]
        constructor
        · intro hc; exact absurd hc (by simp [STATE_LOW, STATE_OK])
        · intro hc; exact absurd hc h1
      · simp only [if_neg h1, if_neg h2]
        constructor
        · intro hc; exact absurd hc (by simp [STATE_HIGH, STATE_OK])
        · intro hc; exact absurd hc h2
      · simp [h1, h2, not_lt.mp h1, not_lt.mp h2]

theorem update_state_problem_iff (rs : List Reading) :
    (PlantDevice.update rs).2 = STATE_PROBLEM ↔ rs.any violated = true := by
  rw [PlantDevice.update_eq]
  by_cases hA : rs.any violated = true
  · have hK : rs.any hasValue = true := by
      rw [List.any_eq_true] at hA ⊢
      obtain ⟨r, hr, hvr⟩ := hA
      exact ⟨r, hr, violated_hasValue hvr⟩
    simp [hA, hK]
  · by_cases hK : rs.any hasValue = true <;>
      simp [hA, hK, STATE_OK, STATE_PROBLEM, STATE_UNKNOWN]

/-- Claim C1: for every plant device and every tracked reading whose
current value is resolvable, `PlantDevice.update` sets the reading's
status to `Low` iff the value is below the min threshold, `High` iff it is
above the max threshold, and `OK` otherwise; and the overall device state
becomes `Problem` iff at least one resolvable reading is out of range with
its alarm trigger enabled (and `OK` when at least one reading is
resolvable and no triggered violation exists). -/
theorem C1_update_status_and_problem_state (rs : List Reading)
    (hth : ∀ r ∈ rs, r.minThreshold ≤ r.maxThreshold) :
    (PlantDevice.update rs).1 = rs.map checkOne ∧
    (∀ r ∈ rs, ∀ v : ℚ, r.value = some v →
      ((checkOne r).status = some STATE_LOW ↔ v < r.minThreshold) ∧
      ((checkOne r).status = some STATE_HIGH ↔ r.maxThreshold < v) ∧
      ((checkOne r).status = some STATE_OK ↔
        r.minThreshold ≤ v ∧ v ≤ r.maxThreshold)) ∧
    ((PlantDevice.update rs).2 = STATE_PROBLEM ↔
      ∃ r ∈ rs, ∃ v : ℚ, r.value = some v ∧ r.trigger = true ∧
        (v < r.minThreshold ∨ r.maxThreshold < v)) ∧
    ((∃ r ∈ rs, (r.value).isSome) →
      (¬ ∃ r ∈ rs, ∃ v : ℚ, r.value = some v ∧ r.trigger = true ∧
        (v < r.minThreshold ∨ r.maxThreshold < v)) →
      (PlantDevice.update rs).2 = STATE_OK) := by
  refine ⟨by rw [PlantDevice.update_eq], ?_, ?_, ?_⟩
  · intro r hr v hv
    exact checkOne_status_spec r v hv (hth r hr)
  · rw [update_state_problem_iff, any_violated_iff]
  · intro hk hnv
    have hK : rs.any hasValue = true := by
      rw [List.any_eq_true]
      obtain ⟨r, hr, hvr⟩ := hk
      exact ⟨r, hr, hvr⟩
    have hA : ¬ rs.any violated = true := fun hc =>
      hnv ((any_violated_iff rs).mp hc)
    rw [PlantDevice.update_eq]
    simp [hK, hA]

theorem C1_update_status_and_problem_state_witness :
    (∀ r ∈ ([⟨some 5, 10, 20, true, none⟩] : List Reading),
      r.minThreshold ≤ r.maxThreshold) ∧
    (PlantDevice.update [⟨some 5, 10, 20, true, none⟩]).2 = STATE_PROBLEM := by
  refine ⟨by decide, ?_⟩
  exact (C1_update_status_and_problem_state [⟨some 5, 10, 20, true, none⟩]
    (by decide)).2.2.1.mpr
    ⟨⟨some 5, 10, 20, true, none⟩, by decide, 5, rfl, rfl, Or.inl (by norm_num)⟩

/-- Claim C2: if no tracked reading of the device is resolvable in
`PlantDevice.update` (every sensor is absent, or every present sensor's
state is `None`, unknown or unavailable), the overall device state is set
to `STATE_UNKNOWN`, regardless of the alarm-trigger options. -/
theorem C2_update_unknown_when_nothing_resolvable (rs : List Reading)
    (h : ∀ r ∈ rs, r.value = none) :
    (PlantDevice.update rs).2 = STATE_UNKNOWN := by
  rw [PlantDevice.update_eq]
  have hK : rs.any hasValue = false := by
    rw [List.any_eq_false]
    intro r hr
    simp [hasValue, h r hr]
  simp [hK]

theorem C2_update_unknown_when_nothing_resolvable_witness :
    (∀ r ∈ ([⟨none, 0, 1, true, some STATE_LOW⟩,
              ⟨none, 5, 9, true, some STATE_HIGH⟩] : List Reading),
      r.value = none) ∧
    (PlantDevice.update [⟨none, 0, 1, true, some STATE_LOW⟩,
                          ⟨none, 5, 9, true, some STATE_HIGH⟩]).2 = STATE_UNKNOWN :=
  ⟨by decide,
   C2_update_unknown_when_nothing_resolvable
     [⟨none, 0, 1, true, some STATE_LOW⟩, ⟨none, 5, 9, true, some STATE_HIGH⟩]
     (by decide)⟩

/-! ### Cycle aggregation (`__init__.py` lines 2044-2217,
`PlantDevice._update_median_sensors`)

Aggregation-method constants from `const.py` lines 307-311. -/

def AGGREGATION_MEDIAN : String := "median"

def AGGREGATION_MEAN : String := "mean"

def AGGREGATION_MIN : String := "min"

def AGGREGATION_MAX : String := "max"

def AGGREGATION_ORIGINAL : String := "original"

/-- Python's built-in `min` over a non-empty list of numbers (the `[]`
case never arises in the source, which guards with `if values`). -/
def listMin : List ℚ → ℚ
  | [] => 0
  | v :: vs => vs.foldl min v

/-- Python's built-in `max` over a non-empty list of numbers. -/
def listMax : List ℚ → ℚ
  | [] => 0
  | v :: vs => vs.foldl max v

/-- The aggregate computed by the `if aggregation_method == ...` chain of
`_update_median_sensors` (and, identically, of
`PotSizeNumber._update_cycle_pot_size` and
`WaterCapacityNumber._update_cycle_water_capacity` in `number.py`):
`mean` is `sum(values) / len(values)`, `min` / `max` are the Python
built-ins, and every other method falls into the `else` branch which
computes the median of `sorted(values)` (average of the two middle
elements for an even count, the middle element otherwise). -/
def aggregateValue (aggregationMethod : String) (values : List ℚ) : ℚ :=
  if aggregationMethod = AGGREGATION_MEAN then
    values.sum / (values.length : ℚ)
  else if aggregationMethod = AGGREGATION_MIN then
    listMin values
  else if aggregationMethod = AGGREGATION_MAX then
    listMax values
  else
    let sortedValues := values.insertionSort (· ≤ ·)
    let n := sortedValues.length
    if n % 2 = 0 then
      (sortedValues.getD (n / 2 - 1) 0 + sortedValues.getD (n / 2) 0) / 2
    else
      sortedValues.getD (n / 2) 0

/-- The sensor types for which `_update_median_sensors` stores
`(value, sensor)` pairs and supports the `original` method. -/
def specialTypes : List String :=
  ["ppfd", "dli", "total_integral", "moisture_consumption",
   "total_water_consumption", "fertilizer_consumption",
   "total_fertilizer_consumption", "power_consumption",
   "total_power_consumption"]

/-- The per-type rounding at the end of `_update_median_sensors`:
6 decimals for `total_integral`, 3 for `ppfd`/`dli`, 1 for temperature,
moisture, humidity and moisture consumption, none otherwise. -/
def roundForType (sensorType : String) (value : ℚ) : ℚ :=
  if sensorType = "total_integral" then roundTo 6 value
  else if sensorType ∈ ["ppfd", "dli"] then roundTo 3 value
  else if sensorType ∈ ["temperature", "moisture", "humidity",
      "moisture_consumption"] then roundTo 1 value
  else roundTo 0 value

/-- Assignment `self._median_sensors[sensor_type] = value` on the cache
modelled as an association list. -/
def setEntry : List (String × ℚ) → String → ℚ → List (String × ℚ)
  | [], key, value => [(key, value)]
  | (k, v) :: rest, key, value =>
    if k = key then (key, value) :: rest else (k, v) :: setEntry rest key value

/-- Lookup `self._median_sensors.get(sensor_type)`. -/
def getEntry : List (String × ℚ) → String → Option ℚ
  | [], _ => none
  | (k, v) :: rest, key => if k = key then some v else getEntry rest key

/-- The body of the `for sensor_type, values in sensor_values.items()`
loop of `_update_median_sensors` for one sensor type, acting on the
`_median_sensors` cache.  When the collected `values` list is empty
nothing is stored.  Otherwise, if the type is one of `specialTypes` and
the method is `original`, the first value is stored — but because the
source has no `continue` here, control then falls through: the
`mean`/`min`/`max`/`else (median)` chain runs anyway (for `original`
this lands in the `else` median branch) and the rounded aggregate
overwrites the cache entry. -/
def applySensorType (sensorType aggregationMethod : String) (values : List ℚ)
    (cache : List (String × ℚ)) : List (String × ℚ) :=
  if values = [] then cache
  else
    let cache1 :=
      if sensorType ∈ specialTypes ∧ aggregationMethod = AGGREGATION_ORIGINAL then
        setEntry cache sensorType (values.headD 0)
      else cache
    setEntry cache1 sensorType
      (roundForType sensorType (aggregateValue aggregationMethod values))

/-- The sensor-type keys of the `sensor_values` dictionary, in source
order. -/
def sensorTypes : List String :=
  ["temperature", "moisture", "conductivity", "illuminance", "humidity",
   "ppfd", "dli", "total_integral", "moisture_consumption",
   "total_water_consumption", "fertilizer_consumption",
   "total_fertilizer_consumption", "power_consumption",
   "total_power_consumption"]

/-- State of a cycle `PlantDevice` relevant to the aggregation claims:
the ordered member-plant list and the `_median_sensors` cache. -/
structure CycleState where
  memberPlants : List String
  medianSensors : List (String × ℚ)
deriving DecidableEq, Repr

/-- `PlantDevice._update_median_sensors`.  `env plantId sensorType` is the
resolvable numeric value of that member plant's sensor of that type
(`none` when the plant cannot be found, the sensor is absent, its state
is unknown/unavailable/`None`, or `float()` fails — all of which make the
source skip the value).  `aggregationOf sensorType` is
`self._plant_info.get("aggregations", {}).get(sensor_type,
DEFAULT_AGGREGATIONS.get(sensor_type, AGGREGATION_MEDIAN))`.
If the member list is empty the method returns at once, leaving the
cache untouched. -/
def updateMedianSensors (env : String → String → Option ℚ)
    (aggregationOf : String → String) (c : CycleState) : CycleState :=
  if c.memberPlants = [] then c
  else
    { c with
      medianSensors :=
        sensorTypes.foldl
          (fun cache t =>
            applySensorType t (aggregationOf t)
              (c.memberPlants.filterMap (fun pid => env pid t)) cache)
          c.medianSensors }

/-- `PlantDevice.remove_member_plant`: if the plant is a member, remove it
from `_member_plants` and recompute (`_update_cycle_attributes` and the
follow-up async tasks do not touch `_median_sensors`). -/
def removeMemberPlant (env : String → String → Option ℚ)
    (aggregationOf : String → String) (plantEntityId : String)
    (c : CycleState) : CycleState :=
  if plantEntityId ∈ c.memberPlants then
    updateMedianSensors env aggregationOf
      { c with memberPlants := c.memberPlants.erase plantEntityId }
  else c

/-- `CycleMedianSensor.state` (`sensor.py` lines 1359-1362): return
`self.plant._median_sensors.get(self._sensor_type)`. -/
def cycleMedianSensorState (c : CycleState) (sensorType : String) : Option ℚ :=
  getEntry c.medianSensors sensorType

theorem foldl_min_choice (vs : List ℚ) (v : ℚ) :
    vs.foldl min v = v ∨ vs.foldl min v ∈ vs := by
  induction vs generalizing v with
  | nil => exact Or.inl rfl
  | cons w ws ih =>
    rw [List.foldl_cons]
    rcases ih (min v w) with hfix | hmem
    · rcases min_choice v w with hc | hc
      · exact Or.inl (hfix.trans hc)
      · exact Or.inr (by rw [hfix, hc]; exact List.mem_cons_self w ws)
    · exact Or.inr (List.mem_cons_of_mem w hmem)

theorem foldl_min_le (vs : List ℚ) (v : ℚ) :
    vs.foldl min v ≤ v ∧ ∀ x ∈ vs, vs.foldl min v ≤ x := by
  induction vs generalizing v with
  | nil => exact ⟨le_refl v, by simp⟩
  | cons w ws ih =>
    obtain ⟨h1, h2⟩ := ih (min v w)
    rw [List.foldl_cons]
    refine ⟨h1.trans (min_le_left v w), ?_⟩
    intro x hx
    rcases List.mem_cons.mp hx with hxw | hxs
    · rw [hxw]; exact h1.trans (min_le_right v w)
    · exact h2 x hxs

theorem foldl_max_choice (vs : List ℚ) (v : ℚ) :
    vs.foldl max v = v ∨ vs.foldl max v ∈ vs := by
  induction vs generalizing v with
  | nil => exact Or.inl rfl
  | cons w ws ih =>
    rw [List.foldl_cons]
    rcases ih (max v w) with hfix | hmem
    · rcases max_choice v w with hc | hc
      · exact Or.inl (hfix.trans hc)
      · exact Or.inr (by rw [hfix, hc]; exact List.mem_cons_self w ws)
    · exact Or.inr (List.mem_cons_of_mem w hmem)

theorem foldl_max_le (vs : List ℚ) (v : ℚ) :
    v ≤ vs.foldl max v ∧ ∀ x ∈ vs, x ≤ vs.foldl max v := by
  induction vs generalizing v with
  | nil => exact ⟨le_refl v, by simp⟩
  | cons w ws ih =>
    obtain ⟨h1, h2⟩ := ih (max v w)
    rw [List.foldl_cons]
    refine ⟨(le_max_left v w).trans h1, ?_⟩
    intro x hx
    rcases List.mem_cons.mp hx with hxw | hxs
    · rw [hxw]; exact (le_max_right v w).trans h1
    · exact h2 x hxs

theorem listMin_spec (values : List ℚ) (h : values ≠ []) :
    listMin values ∈ values ∧ ∀ v ∈ values, listMin values ≤ v := by
  cases values with
  | nil => exact absurd rfl h
  | cons v vs =>
    obtain ⟨h1, h2⟩ := foldl_min_le vs v
    constructor
    · rcases foldl_min_choice vs v with hc | hc
      · rw [listMin, hc]; exact List.mem_cons_self v vs
      · exact List.mem_cons_of_mem v hc
    · intro x hx
      rcases List.mem_cons.mp hx with hxv | hxs
      · rw [hxv]; exact h1
      · exact h2 x hxs

theorem listMax_spec (values : List ℚ) (h : values ≠ []) :
    listMax values ∈ values ∧ ∀ v ∈ values, v ≤ listMax values := by
  cases values with
  | nil => exact absurd rfl h
  | cons v vs =>
    obtain ⟨h1, h2⟩ := foldl_max_le vs v
    constructor
    · rcases foldl_max_choice vs v with hc | hc
      · rw [listMax, hc]; exact List.mem_cons_self v vs
      · exact List.mem_cons_of_mem v hc
    · intro x hx
      rcases List.mem_cons.mp hx with hxv | hxs
      · rw [hxv]; exact h1
      · exact h2 x hxs

theorem getEntry_setEntry (cache : List (String × ℚ)) (key : String) (value : ℚ) :
    getEntry (setEntry cache key value) key = some value := by
  induction cache with
  | nil => simp [setEntry, getEntry]
  | cons kv rest ih =>
    obtain ⟨k, v⟩ := kv
    by_cases hk : k = key
    · simp [setEntry, getEntry, hk]
    · simp [setEntry, getEntry, hk, ih]

/-- Claim C3: for a non-empty list of member values, the aggregate stored
in `_median_sensors` is the per-type rounding of: the arithmetic average
for method `mean`, the minimum for `min`, the maximum for `max`, and the
middle element (or average of the two middle elements) of the sorted
values for `median`; members 18, 20, 22 give median 20 and 18, 20 give
19. -/
theorem C3_cycle_aggregate_values (values : List ℚ) (h : values ≠ [])
    (sensorType : String) (cache : List (String × ℚ)) :
    (aggregateValue AGGREGATION_MEAN values = values.sum / (values.length : ℚ)) ∧
    (aggregateValue AGGREGATION_MIN values ∈ values ∧
      ∀ v ∈ values, aggregateValue AGGREGATION_MIN values ≤ v) ∧
    (aggregateValue AGGREGATION_MAX values ∈ values ∧
      ∀ v ∈ values, v ≤ aggregateValue AGGREGATION_MAX values) ∧
    (∃ s : List ℚ, values.Perm s ∧ s.Sorted (· ≤ ·) ∧
      aggregateValue AGGREGATION_MEDIAN values =
        (if s.length % 2 = 0 then
          (s.getD (s.length / 2 - 1) 0 + s.getD (s.length / 2) 0) / 2
        else s.getD (s.length / 2) 0)) ∧
    (∀ m ∈ [AGGREGATION_MEAN, AGGREGATION_MIN, AGGREGATION_MAX,
        AGGREGATION_MEDIAN],
      getEntry (applySensorType sensorType m values cache) sensorType =
        some (roundForType sensorType (aggregateValue m values))) ∧
    (aggregateValue AGGREGATION_MEDIAN [18, 20, 22] = 20 ∧
      aggregateValue AGGREGATION_MEDIAN [18, 20] = 19 ∧
      aggregateValue AGGREGATION_MEAN [18, 20, 22] = 20 ∧
      aggregateValue AGGREGATION_MIN [18, 20, 22] = 18 ∧
      aggregateValue AGGREGATION_MAX [18, 20, 22] = 22) := by
  have hmin : aggregateValue AGGREGATION_MIN values = listMin values := by
    simp [aggregateValue, AGGREGATION_MIN, AGGREGATION_MEAN]
  have hmax : aggregateValue AGGREGATION_MAX values = listMax values := by
    simp [aggregateValue, AGGREGATION_MAX, AGGREGATION_MEAN, AGGREGATION_MIN]
  refine ⟨by simp [aggregateValue, AGGREGATION_MEAN], ?_, ?_, ?_, ?_, ?_⟩
  · rw [hmin]; exact listMin_spec values h
  · rw [hmax]; exact listMax_spec values h
  · refine ⟨values.insertionSort (· ≤ ·), (List.perm_insertionSort _ values).symm,
      List.sorted_insertionSort _ values, ?_⟩
    simp [aggregateValue, AGGREGATION_MEDIAN, AGGREGATION_MEAN, AGGREGATION_MIN,
      AGGREGATION_MAX]
  · intro m hm
    have hmo : ¬(sensorType ∈ specialTypes ∧ m = AGGREGATION_ORIGINAL) := by
      rintro ⟨-, hmo⟩
      fin_cases hm <;> exact absurd hmo (by decide)
    simp only [applySensorType, if_neg h, if_neg hmo]
    exact getEntry_setEntry cache sensorType _
  · norm_num [aggregateValue, AGGREGATION_MEDIAN, AGGREGATION_MEAN, AGGREGATION_MIN,
      AGGREGATION_MAX, List.insertionSort, List.orderedInsert, listMin, listMax,
      min_def, max_def]
    decide

theorem C3_cycle_aggregate_values_witness :
    (([18, 20, 22] : List ℚ) ≠ []) ∧
    aggregateValue AGGREGATION_MIN [18, 20, 22] ∈ ([18, 20, 22] : List ℚ) :=
  ⟨by decide,
   (C3_cycle_aggregate_values [18, 20, 22] (by decide) "temperature" []).2.1.1⟩

theorem applySensorType_nil (sensorType aggregationMethod : String)
    (cache : List (String × ℚ)) :
    applySensorType sensorType aggregationMethod [] cache = cache := by
  simp [applySensorType]

/-- Claim C4 (refuted by the code): for a cycle DLI sensor configured
with aggregation method `original` and two members reporting 5 and 9, the
value stored in `_median_sensors` and reported by `CycleMedianSensor.state`
is 7 — the median — not the first member's value 5.  The `original`
branch stores 5 first, but the missing `continue` lets the
`else` (median) branch run and overwrite it. -/
theorem C4_original_overwritten_by_median :
    cycleMedianSensorState
      (updateMedianSensors
        (fun pid t =>
          if t = "dli" then (if pid = "p1" then some 5 else some 9) else none)
        (fun _ => AGGREGATION_ORIGINAL)
        ⟨["p1", "p2"], []⟩) "dli" = some 7 ∧
    getEntry (applySensorType "dli" AGGREGATION_ORIGINAL [5, 9] []) "dli" =
      some 7 := by
  have hagg : aggregateValue AGGREGATION_ORIGINAL [5, 9] = 7 := by
    norm_num [aggregateValue, AGGREGATION_ORIGINAL, AGGREGATION_MEAN,
      AGGREGATION_MIN, AGGREGATION_MAX, List.insertionSort, List.orderedInsert]
    decide
  have hround : roundForType "dli" (7 : ℚ) = 7 := by
    norm_num [roundForType, roundTo, pyRoundInt]
  have happly : applySensorType "dli" AGGREGATION_ORIGINAL [5, 9] [] =
      [("dli", 7)] := by
    simp [applySensorType, specialTypes, hagg, hround, setEntry]
  refine ⟨?_, by rw [happly]; simp [getEntry]⟩
  simp [cycleMedianSensorState, updateMedianSensors, sensorTypes,
    applySensorType_nil, happly, getEntry]
  rw [hagg]
  exact hround

/-- Claim C10: `_update_median_sensors` returns immediately, leaving the
`_median_sensors` cache untouched, when the member list is empty; and
`remove_member_plant` never clears the cache, so after the last member is
removed every `CycleMedianSensor` keeps reporting the aggregate computed
for the former membership. -/
theorem C10_median_cache_persists_after_last_member
    (env : String → String → Option ℚ) (aggregationOf : String → String)
    (c : CycleState) (pid : String) (h : c.memberPlants = [pid]) :
    (∀ c' : CycleState, c'.memberPlants = [] →
      updateMedianSensors env aggregationOf c' = c') ∧
    (removeMemberPlant env aggregationOf pid c).medianSensors =
      c.medianSensors ∧
    (∀ t, cycleMedianSensorState (removeMemberPlant env aggregationOf pid c) t =
      cycleMedianSensorState c t) := by
  have hupd : ∀ c' : CycleState, c'.memberPlants = [] →
      updateMedianSensors env aggregationOf c' = c' := by
    intro c' hc'
    simp [updateMedianSensors, hc']
  have hmem : pid ∈ c.memberPlants := by rw [h]; exact List.mem_singleton.mpr rfl
  have herase : c.memberPlants.erase pid = [] := by
    rw [h, List.erase_cons_head]
  have hrm : removeMemberPlant env aggregationOf pid c =
      { c with memberPlants := [] } := by
    rw [removeMemberPlant, if_pos hmem, herase]
    exact hupd _ rfl
  exact ⟨hupd, by rw [hrm], fun t => by rw [hrm]; rfl⟩

theorem C10_median_cache_persists_after_last_member_witness :
    (CycleState.memberPlants ⟨["plant.a"], [("temperature", 20)]⟩ = ["plant.a"]) ∧
    (removeMemberPlant (fun _ _ => none) (fun _ => AGGREGATION_MEDIAN) "plant.a"
        ⟨["plant.a"], [("temperature", 20)]⟩).medianSensors =
      CycleState.medianSensors ⟨["plant.a"], [("temperature", 20)]⟩ :=
  ⟨rfl,
   (C10_median_cache_persists_after_last_member (fun _ _ => none)
     (fun _ => AGGREGATION_MEDIAN) ⟨["plant.a"], [("temperature", 20)]⟩
     "plant.a" rfl).2.1⟩

/-! ### `PlantCurrentMoistureConsumption._state_changed_event`
(`sensor.py` lines 1459-1507)

The sensor keeps a rolling history of `(timestamp, moisture)` samples;
timestamps are modelled in hours so the 24-hour cutoff is `now - 24`. -/

/-- State of the moisture-consumption sensor: the rolling `_history`, the
reported `_attr_native_value` and `_last_update`. -/
structure MoistureConsumptionState where
  history : List (ℚ × ℚ)
  nativeValue : ℚ
  lastUpdate : Option ℚ
deriving DecidableEq, Repr

/-- The `total_drop` computation: over consecutive history entries, count
`previous - current` whenever the current value is lower, and sum. -/
def totalDrop : List (ℚ × ℚ) → ℚ
  | [] => 0
  | [_] => 0
  | a :: b :: rest =>
    (if b.2 < a.2 then a.2 - b.2 else 0) + totalDrop (b :: rest)

/-- `_state_changed_event` for a usable new moisture value `newValue` at
time `now` (the source returns early for new plants and for
unknown/unavailable states): append to the history, drop entries older
than 24 hours, and if at least two samples remain, store
`round((total_drop / 100) * pot_size * (water_capacity / 100), 2)`
(`pot_size` and `water_capacity` are the owning plant's number entities,
present on every configured plant). -/
def stateChangedEvent (potSize waterCapacity : ℚ) (now newValue : ℚ)
    (s : MoistureConsumptionState) : MoistureConsumptionState :=
  let history1 := s.history ++ [(now, newValue)]
  let cutoff := now - 24
  let history2 := history1.filter (fun tv => cutoff ≤ tv.1)
  if 2 ≤ history2.length then
    { history := history2,
      nativeValue :=
        roundTo 2 ((totalDrop history2 / 100) * potSize * (waterCapacity / 100)),
      lastUpdate := some now }
  else
    { s with history := history2 }

/-- Claim C5: after a moisture-sensor state change, the reported value is
the sum of all negative moisture deltas within the rolling 24-hour
history, converted to volume as `(total_drop / 100) * pot_size *
(water_capacity / 100)` and rounded to 2 decimals; every retained history
entry lies within the window. -/
theorem C5_moisture_consumption_formula (potSize waterCapacity now newValue : ℚ)
    (s : MoistureConsumptionState)
    (h2 : 2 ≤ ((s.history ++ [(now, newValue)]).filter
      (fun tv => now - 24 ≤ tv.1)).length) :
    (stateChangedEvent potSize waterCapacity now newValue s).nativeValue =
      roundTo 2
        ((totalDrop ((s.history ++ [(now, newValue)]).filter
            (fun tv => now - 24 ≤ tv.1)) / 100) * potSize *
          (waterCapacity / 100)) ∧
    (∀ tv ∈ (stateChangedEvent potSize waterCapacity now newValue s).history,
      now - 24 ≤ tv.1) := by
  constructor
  · simp only [stateChangedEvent, if_pos h2]
  · intro tv htv
    simp only [stateChangedEvent, if_pos h2] at htv
    have : tv ∈ (s.history ++ [(now, newValue)]).filter
        (fun tv => now - 24 ≤ tv.1) := htv
    simpa using (List.mem_filter.mp this).2

theorem C5_moisture_consumption_formula_witness :
    (2 ≤ ((MoistureConsumptionState.history ⟨[(0, 60)], 0, none⟩ ++
        [((1 : ℚ), (50 : ℚ))]).filter (fun tv => (1 : ℚ) - 24 ≤ tv.1)).length) ∧
    (stateChangedEvent 2 50 1 50 ⟨[(0, 60)], 0, none⟩).nativeValue = 1 / 10 := by
  have hlen : 2 ≤ ((MoistureConsumptionState.history ⟨[(0, 60)], 0, none⟩ ++
      [((1 : ℚ), (50 : ℚ))]).filter (fun tv => (1 : ℚ) - 24 ≤ tv.1)).length := by
    norm_num [List.filter_cons]
  refine ⟨hlen, ?_⟩
  have h := (C5_moisture_consumption_formula 2 50 1 50 ⟨[(0, 60)], 0, none⟩
    hlen).1
  rw [h]
  norm_num [totalDrop, roundTo, pyRoundInt]

/-! ### `PlantCurrentPpfd.ppfd` (`sensor.py` lines 853-866) and
`DEFAULT_LUX_TO_PPFD` (`const.py` line 169) -/

def DEFAULT_LUX_TO_PPFD : ℚ := 0.0185

/-- The lux-to-PPFD conversion: a resolvable numeric state is multiplied
by `DEFAULT_LUX_TO_PPFD / 1000000`; a `None`, unknown or unavailable
state (modelled as `none`) yields `None`. -/
def ppfd (value : Option ℚ) : Option ℚ :=
  match value with
  | some v => some (v * DEFAULT_LUX_TO_PPFD / 1000000)
  | none => none

/-- Claim C6: a numeric input value gives PPFD `value * 0.0185 / 1000000`
(10000 lux gives 0.000185); a `None`, unknown or unavailable input gives
an absent result (`none`), not zero. -/
theorem C6_ppfd_conversion :
    (∀ v : ℚ, ppfd (some v) = some (v * 0.0185 / 1000000)) ∧
    ppfd (some 10000) = some 0.000185 ∧
    ppfd none = none := by
  refine ⟨fun v => rfl, ?_, rfl⟩
  show some ((10000 : ℚ) * DEFAULT_LUX_TO_PPFD / 1000000) = some 0.000185
  norm_num [DEFAULT_LUX_TO_PPFD]

/-! ### `PlantGrowthPhaseSelect._update_cycle_phase`
(`select.py` lines 201-284)

Growth-phase constants from `const.py` lines 239-255 and the
`phase_order` ordinal mapping from `select.py` lines 113-120. -/

def GROWTH_PHASE_SEEDS : String := "Samen"

def GROWTH_PHASE_GERMINATION : String := "Keimen"

def GROWTH_PHASE_ROOTING : String := "Wurzeln"

def GROWTH_PHASE_GROWING : String := "Wachstum"

def GROWTH_PHASE_FLOWERING : String := "Blüte"

def GROWTH_PHASE_HARVESTED : String := "Geerntet"

def GROWTH_PHASE_REMOVED : String := "Entfernt"

def GROWTH_PHASES : List String :=
  [GROWTH_PHASE_SEEDS, GROWTH_PHASE_GERMINATION, GROWTH_PHASE_ROOTING,
   GROWTH_PHASE_GROWING, GROWTH_PHASE_FLOWERING, GROWTH_PHASE_HARVESTED,
   GROWTH_PHASE_REMOVED]

/-- The `self.phase_order` dictionary (Removed has no entry; lookups use
`.get(x, default)`). -/
def phase_order (p : String) : Option ℤ :=
  if p = GROWTH_PHASE_SEEDS then some 0
  else if p = GROWTH_PHASE_GERMINATION then some 1
  else if p = GROWTH_PHASE_ROOTING then some 2
  else if p = GROWTH_PHASE_GROWING then some 3
  else if p = GROWTH_PHASE_FLOWERING then some 4
  else if p = GROWTH_PHASE_HARVESTED then some 5
  else none

/-- Python `min(xs, key=...)` on the non-empty list `x :: xs`: keep the
first element whose key is strictly smaller than the current best. -/
def minByKey {α : Type} (key : α → ℤ) (x : α) (xs : List α) : α :=
  xs.foldl (fun acc y => if key y < key acc then y else acc) x

/-- Python `max(xs, key=...)` on the non-empty list `x :: xs`. -/
def maxByKey {α : Type} (key : α → ℤ) (x : α) (xs : List α) : α :=
  xs.foldl (fun acc y => if key y > key acc then y else acc) x

theorem minByKey_mem {α : Type} (key : α → ℤ) (x : α) (xs : List α) :
    minByKey key x xs ∈ x :: xs := by
  induction xs generalizing x with
  | nil => exact List.mem_singleton.mpr rfl
  | cons y ys ih =>
    rw [minByKey, List.foldl_cons]
    show minByKey key (if key y < key x then y else x) ys ∈ x :: y :: ys
    have h := ih (if key y < key x then y else x)
    rcases List.mem_cons.mp h with hh | ht
    · rw [hh]
      by_cases hc : key y < key x
      · simp [hc]
      · simp [hc]
    · exact List.mem_cons_of_mem x (List.mem_cons_of_mem y ht)

theorem minByKey_le {α : Type} (key : α → ℤ) (x : α) (xs : List α) :
    ∀ p ∈ x :: xs, key (minByKey key x xs) ≤ key p := by
  induction xs generalizing x with
  | nil =>
    intro p hp
    rw [List.mem_singleton.mp hp]
    exact le_refl _
  | cons y ys ih =>
    intro p hp
    rw [minByKey, List.foldl_cons]
    have hbest : key (if key y < key x then y else x) ≤ key x ∧
        key (if key y < key x then y else x) ≤ key y := by
      by_cases hc : key y < key x
      · simp only [if_pos hc]
        exact ⟨le_of_lt hc, le_refl _⟩
      · simp only [if_neg hc]
        exact ⟨le_refl _, not_lt.mp hc⟩
    have hres := ih (if key y < key x then y else x)
    rcases List.mem_cons.mp hp with hpx | hp2
    · rw [hpx]
      exact (hres _ (List.mem_cons_self _ _)).trans hbest.1
    · rcases List.mem_cons.mp hp2 with hpy | hps
      · rw [hpy]
        exact (hres _ (List.mem_cons_self _ _)).trans hbest.2
      · exact hres p (List.mem_cons_of_mem _ hps)

theorem maxByKey_mem {α : Type} (key : α → ℤ) (x : α) (xs : List α) :
    maxByKey key x xs ∈ x :: xs := by
  induction xs generalizing x with
  | nil => exact List.mem_singleton.mpr rfl
  | cons y ys ih =>
    rw [maxByKey, List.foldl_cons]
    show maxByKey key (if key y > key x then y else x) ys ∈ x :: y :: ys
    have h := ih (if key y > key x then y else x)
    rcases List.mem_cons.mp h with hh | ht
    · rw [hh]
      by_cases hc : key y > key x
      · simp [hc]
      · simp [hc]
    · exact List.mem_cons_of_mem x (List.mem_cons_of_mem y ht)

theorem maxByKey_ge {α : Type} (key : α → ℤ) (x : α) (xs : List α) :
    ∀ p ∈ x :: xs, key p ≤ key (maxByKey key x xs) := by
  induction xs generalizing x with
  | nil =>
    intro p hp
    rw [List.mem_singleton.mp hp]
    exact le_refl _
  | cons y ys ih =>
    intro p hp
    rw [maxByKey, List.foldl_cons]
    have hbest : key x ≤ key (if key y > key x then y else x) ∧
        key y ≤ key (if key y > key x then y else x) := by
      by_cases hc : key y > key x
      · simp only [if_pos hc]
        exact ⟨le_of_lt hc, le_refl _⟩
      · simp only [if_neg hc]
        exact ⟨le_refl _, not_lt.mp hc⟩
    have hres := ih (if key y > key x then y else x)
    rcases List.mem_cons.mp hp with hpx | hp2
    · rw [hpx]
      exact hbest.1.trans (hres _ (List.mem_cons_self _ _))
    · rcases List.mem_cons.mp hp2 with hpy | hps
      · rw [hpy]
        exact hbest.2.trans (hres _ (List.mem_cons_self _ _))
      · exact hres p (List.mem_cons_of_mem _ hps)

/-- State of the cycle's growth-phase select entity:
`_attr_current_option` and the owning cycle's `_member_plants`. -/
structure CyclePhaseState where
  currentOption : String
  memberPlants : List String
deriving DecidableEq, Repr

/-- The member-phase collection loop of `_update_cycle_phase`: for each
member plant that can be found and has a growth-phase select
(`phaseOf plantId` is its `current_option`, `none` if not found), keep
the phase unless it is `GROWTH_PHASE_REMOVED`. -/
def collectMemberPhases (phaseOf : String → Option String)
    (memberPlants : List String) : List String :=
  (memberPlants.filterMap phaseOf).filter (fun p => p ≠ GROWTH_PHASE_REMOVED)

/-- `PlantGrowthPhaseSelect._update_cycle_phase`: return unchanged when
there are no member plants or no collected phases; otherwise pick the
phase with the smallest `phase_order.get(x, 999)` for method `min`, and
with the largest `phase_order.get(x, -1)` for any other method
(the state-attribute bookkeeping and `async_write_ha_state` calls do not
affect `currentOption`). -/
def updateCyclePhase (phaseOf : String → Option String)
    (aggregationMethod : String) (s : CyclePhaseState) : CyclePhaseState :=
  if s.memberPlants = [] then s
  else
    match collectMemberPhases phaseOf s.memberPlants with
    | [] => s
    | p :: ps =>
      let newPhase :=
        if aggregationMethod = "min" then
          minByKey (fun x => (phase_order x).getD 999) p ps
        else
          maxByKey (fun x => (phase_order x).getD (-1)) p ps
      { s with currentOption := newPhase }

/-- Claim C7: `_update_cycle_phase` collects the member phases excluding
`Removed`; with at least one phase left, the cycle's phase becomes the
least-advanced phase in the growth-phase ordering for method `min` and
the most-advanced one for any other method; with no phases left the
current phase is unchanged. -/
theorem C7_cycle_phase_aggregation (phaseOf : String → Option String)
    (aggregationMethod : String) (s : CyclePhaseState) :
    (∀ p ∈ collectMemberPhases phaseOf s.memberPlants,
      p ≠ GROWTH_PHASE_REMOVED) ∧
    (collectMemberPhases phaseOf s.memberPlants = [] →
      updateCyclePhase phaseOf aggregationMethod s = s) ∧
    (∀ p ps, collectMemberPhases phaseOf s.memberPlants = p :: ps →
      s.memberPlants ≠ [] →
      (aggregationMethod = "min" →
        (updateCyclePhase phaseOf aggregationMethod s).currentOption ∈ p :: ps ∧
        ∀ q ∈ p :: ps,
          (phase_order
            (updateCyclePhase phaseOf aggregationMethod s).currentOption).getD 999 ≤
          (phase_order q).getD 999) ∧
      (aggregationMethod ≠ "min" →
        (updateCyclePhase phaseOf aggregationMethod s).currentOption ∈ p :: ps ∧
        ∀ q ∈ p :: ps,
          (phase_order q).getD (-1) ≤
          (phase_order
            (updateCyclePhase phaseOf aggregationMethod s).currentOption).getD (-1))) := by
  refine ⟨?_, ?_, ?_⟩
  · intro p hp
    have := List.of_mem_filter hp
    simpa using this
  · intro hc
    by_cases hm : s.memberPlants = []
    · simp [updateCyclePhase, hm]
    · simp [updateCyclePhase, hm, hc]
  · intro p ps hc hm
    constructor
    · intro hmin
      have hres : (updateCyclePhase phaseOf aggregationMethod s).currentOption =
          minByKey (fun x => (phase_order x).getD 999) p ps := by
        simp [updateCyclePhase, hm, hc, hmin]
      rw [hres]
      exact ⟨minByKey_mem _ p ps, minByKey_le _ p ps⟩
    · intro hmax
      have hres : (updateCyclePhase phaseOf aggregationMethod s).currentOption =
          maxByKey (fun x => (phase_order x).getD (-1)) p ps := by
        simp [updateCyclePhase, hm, hc, hmax]
      rw [hres]
      exact ⟨maxByKey_mem _ p ps, maxByKey_ge _ p ps⟩

theorem C7_cycle_phase_aggregation_witness :
    (collectMemberPhases
      (fun pid => if pid = "plant.a" then some GROWTH_PHASE_GROWING
        else some GROWTH_PHASE_FLOWERING)
      ["plant.a", "plant.b"] = [GROWTH_PHASE_GROWING, GROWTH_PHASE_FLOWERING]) ∧
    ((updateCyclePhase
      (fun pid => if pid = "plant.a" then some GROWTH_PHASE_GROWING
        else some GROWTH_PHASE_FLOWERING)
      "min" ⟨"", ["plant.a", "plant.b"]⟩).currentOption ∈
        [GROWTH_PHASE_GROWING, GROWTH_PHASE_FLOWERING]) := by
  refine ⟨by decide, ?_⟩
  exact (((C7_cycle_phase_aggregation
    (fun pid => if pid = "plant.a" then some GROWTH_PHASE_GROWING
      else some GROWTH_PHASE_FLOWERING)
    "min" ⟨"", ["plant.a", "plant.b"]⟩).2.2
    GROWTH_PHASE_GROWING [GROWTH_PHASE_FLOWERING]
    (by decide) (by decide)).1 rfl).1

/-! ### `PlantTreatmentSelect` (`select.py` lines 587-669)

Built-in treatment vocabulary from `const.py` lines 406-428. -/

def TREATMENT_OPTIONS : List String :=
  ["cut", "super cropping", "topping", "lollipop", "fim", "rib",
   "spray pest", "spray water"]

/-- State of the treatment select entity: `_custom_treatments`,
`_attr_options` and `_attr_current_option`. -/
structure TreatmentSelectState where
  customTreatments : List String
  options : List String
  currentOption : String
deriving DecidableEq, Repr

/-- `PlantTreatmentSelect._load_treatment_options`: the empty option,
the built-in treatments and the custom treatments, sorted.  Python's
`sorted` on strings is the lexicographic code-point order, matching the
linear order on `String`. -/
def loadTreatmentOptions (customTreatments : List String) : List String :=
  List.insertionSort (· ≤ ·) (("" :: TREATMENT_OPTIONS) ++ customTreatments)

/-- `PlantTreatmentSelect.async_add_custom_treatment`: reject an empty
name and a name already among the options; otherwise append the name to
the custom list, rebuild the options and report success. -/
def addCustomTreatment (treatmentName : String) (s : TreatmentSelectState) :
    Bool × TreatmentSelectState :=
  if treatmentName = "" then (false, s)
  else if treatmentName ∈ s.options then (false, s)
  else
    let customTreatments := s.customTreatments ++ [treatmentName]
    (true, { s with customTreatments := customTreatments,
                    options := loadTreatmentOptions customTreatments })

/-- `PlantTreatmentSelect.async_remove_custom_treatment`: reject a name
that is not a custom treatment; otherwise remove its first occurrence,
rebuild the options, reset the current option if it was the removed
treatment, and report success. -/
def removeCustomTreatment (treatmentName : String) (s : TreatmentSelectState) :
    Bool × TreatmentSelectState :=
  if treatmentName ∉ s.customTreatments then (false, s)
  else
    let customTreatments := s.customTreatments.erase treatmentName
    let currentOption :=
      if s.currentOption = treatmentName then "" else s.currentOption
    (true, { customTreatments := customTreatments,
             options := loadTreatmentOptions customTreatments,
             currentOption := currentOption })

/-- Claim C8: adding an empty or already-present treatment name fails and
leaves the state unchanged; adding a new non-empty name succeeds and the
name appears in the still-sorted options; removing a name not in the
custom list fails; removing a custom name (which, as the add path
guarantees, occurs once and is not an empty or built-in option) succeeds
and the name disappears from the options. -/
theorem C8_treatment_add_remove (treatmentName : String)
    (s : TreatmentSelectState) :
    (addCustomTreatment "" s = (false, s)) ∧
    (treatmentName ∈ s.options →
      addCustomTreatment treatmentName s = (false, s)) ∧
    (treatmentName ≠ "" → treatmentName ∉ s.options →
      (addCustomTreatment treatmentName s).1 = true ∧
      treatmentName ∈ (addCustomTreatment treatmentName s).2.options ∧
      ((addCustomTreatment treatmentName s).2.options).Sorted (· ≤ ·)) ∧
    (treatmentName ∉ s.customTreatments →
      removeCustomTreatment treatmentName s = (false, s)) ∧
    (treatmentName ∈ s.customTreatments → s.customTreatments.Nodup →
      treatmentName ≠ "" → treatmentName ∉ TREATMENT_OPTIONS →
      (removeCustomTreatment treatmentName s).1 = true ∧
      treatmentName ∉ (removeCustomTreatment treatmentName s).2.options) := by
  refine ⟨by simp [addCustomTreatment], ?_, ?_, ?_, ?_⟩
  · intro h
    by_cases he : treatmentName = "" <;> simp [addCustomTreatment, he, h]
  · intro h1 h2
    refine ⟨by simp [addCustomTreatment, h1, h2], ?_, ?_⟩
    · simp [addCustomTreatment, h1, h2, loadTreatmentOptions,
        List.mem_insertionSort]
    · simp only [addCustomTreatment, if_neg h1, if_neg h2, loadTreatmentOptions]
      exact List.sorted_insertionSort _ _
  · intro h
    simp [removeCustomTreatment, h]
  · intro hmem hnd hne hnb
    have hnin : ¬ treatmentName ∉ s.customTreatments := fun hc => hc hmem
    refine ⟨by simp [removeCustomTreatment, hnin], ?_⟩
    simp only [removeCustomTreatment, if_neg hnin, loadTreatmentOptions,
      List.mem_insertionSort, List.mem_append, List.mem_cons]
    rintro (hc | hc)
    · rcases hc with hc | hc
      · exact hne hc
      · exact hnb hc
    · exact absurd rfl (hnd.mem_erase_iff.mp hc).1

theorem C8_treatment_add_remove_witness :
    (("zz" : String) ≠ "" ∧
      "zz" ∉ TreatmentSelectState.options ⟨[], [], ""⟩ ∧
      (addCustomTreatment "zz" ⟨[], [], ""⟩).1 = true ∧
      "zz" ∈ (addCustomTreatment "zz" ⟨[], [], ""⟩).2.options) ∧
    ("zz" ∈ TreatmentSelectState.customTreatments ⟨["zz"], [], ""⟩ ∧
      (removeCustomTreatment "zz" ⟨["zz"], [], ""⟩).1 = true ∧
      "zz" ∉ (removeCustomTreatment "zz" ⟨["zz"], [], ""⟩).2.options) := by
  have hadd := (C8_treatment_add_remove "zz" ⟨[], [], ""⟩).2.2.1
    (by decide) (by simp)
  have hrem := (C8_treatment_add_remove "zz" ⟨["zz"], [], ""⟩).2.2.2.2
    (by simp) (by simp) (by decide) (by decide)
  exact ⟨⟨by decide, by simp, hadd.1, hadd.2.1⟩, ⟨by simp, hrem.1, hrem.2⟩⟩

/-! ### Cycle pot-size and water-capacity fallbacks
(`number.py` lines 363-400 and 504-541)

`DEVICE_TYPE_CYCLE` from `const.py` line 288; `DEFAULT_WATER_CAPACITY`
from `const.py` line 368. -/

def DEVICE_TYPE_CYCLE : String := "cycle"

def DEFAULT_WATER_CAPACITY : ℚ := 50

/-- `PotSizeNumber._update_cycle_pot_size`: return unchanged for
non-cycle devices or an empty member list; collect the members' pot
sizes (`potSizeOf plantId` is `none` when the plant is not found, has no
pot-size entity, or its native value is `None`); with no collected value
store 0; otherwise store the aggregate (the same
`mean`/`min`/`max`/`else`-median chain as `aggregateValue`) rounded to 1
decimal. -/
def updateCyclePotSize (deviceType : String) (memberPlants : List String)
    (potSizeOf : String → Option ℚ) (aggregationMethod : String)
    (nativeValue : ℚ) : ℚ :=
  if deviceType ≠ DEVICE_TYPE_CYCLE ∨ memberPlants = [] then nativeValue
  else
    let potSizes := memberPlants.filterMap potSizeOf
    if potSizes = [] then 0
    else roundTo 1 (aggregateValue aggregationMethod potSizes)

/-- `WaterCapacityNumber._update_cycle_water_capacity`: like
`updateCyclePotSize` (it reuses `pot_size_aggregation`), but with no
collected value it stores `DEFAULT_WATER_CAPACITY`, and the aggregate is
rounded to an integer. -/
def updateCycleWaterCapacity (deviceType : String) (memberPlants : List String)
    (waterCapacityOf : String → Option ℚ) (aggregationMethod : String)
    (nativeValue : ℚ) : ℚ :=
  if deviceType ≠ DEVICE_TYPE_CYCLE ∨ memberPlants = [] then nativeValue
  else
    let capacities := memberPlants.filterMap waterCapacityOf
    if capacities = [] then DEFAULT_WATER_CAPACITY
    else roundTo 0 (aggregateValue aggregationMethod capacities)

/-- Claim C9: when a cycle has member plants but none of them yields a
value, `_update_cycle_pot_size` stores 0 while
`_update_cycle_water_capacity` stores the default constant 50. -/
theorem C9_no_member_value_fallbacks (memberPlants : List String)
    (potSizeOf waterCapacityOf : String → Option ℚ)
    (aggregationMethod : String) (curPot curCap : ℚ)
    (hm : memberPlants ≠ [])
    (hp : memberPlants.filterMap potSizeOf = [])
    (hw : memberPlants.filterMap waterCapacityOf = []) :
    updateCyclePotSize DEVICE_TYPE_CYCLE memberPlants potSizeOf
      aggregationMethod curPot = 0 ∧
    updateCycleWaterCapacity DEVICE_TYPE_CYCLE memberPlants waterCapacityOf
      aggregationMethod curCap = DEFAULT_WATER_CAPACITY ∧
    DEFAULT_WATER_CAPACITY = 50 :=
  ⟨by simp [updateCyclePotSize, hm, hp],
   by simp [updateCycleWaterCapacity, hm, hw],
   rfl⟩

theorem C9_no_member_value_fallbacks_witness :
    ((["plant.a"] : List String) ≠ [] ∧
      (["plant.a"].filterMap (fun _ => (none : Option ℚ))) = []) ∧
    updateCyclePotSize DEVICE_TYPE_CYCLE ["plant.a"] (fun _ => none)
      AGGREGATION_MEAN 7 = 0 ∧
    updateCycleWaterCapacity DEVICE_TYPE_CYCLE ["plant.a"] (fun _ => none)
      AGGREGATION_MEAN 7 = DEFAULT_WATER_CAPACITY := by
  have h := C9_no_member_value_fallbacks ["plant.a"] (fun _ => none)
    (fun _ => none) AGGREGATION_MEAN 7 7 (by simp) (by simp) (by simp)
  exact ⟨⟨by simp, by simp⟩, h.1, h.2.1⟩

end PlantIntegration
